import Mathlib

/-!
Verification of the LanCaster virtual tarball writer and distribution server.

The definitions below are a shallow embedding of the Go sources
`virtual_tarball_writer.go` and `server.go`.  Byte buffers are modelled as
`List Nat` (one `Nat` per byte), Go `int64` values as `Int` where sign matters
and as `Nat` where the source only ever holds non-negative values, and the
on-disk filesystem as an explicit in-memory state threaded through the write
path.  Operating-system calls are modelled on their success path; the few
places where an OS failure is the behaviour under scrutiny are modelled with
explicit markers and documented at the definition.
-/

/-- Errors of the tarball construction path, mirroring `ErrBadPAth` and
`ErrDuplicatePaths` from the Go sources (the misspelling `PAth` is the
source's own). -/
inductive TBErr
  | ErrBadPAth
  | ErrDuplicatePaths
deriving DecidableEq, Repr

/-- Errors of the write path.  `nilBuffer`, `outOfRange` and `badPaddingByte`
mirror `ErrNilBuffer`, `ErrOutOfRange` and `ErrBadPaddingByte`.
`symlinkAttempted` marks the branch of `makeSymlink` that reaches the
`os.Chdir`/`os.Symlink` calls (see `makeSymlink` below), and `nilHandle` marks
a write through a nil `openFile` handle; both branches depend on the live
filesystem in the source and are surfaced as distinguished markers here. -/
inductive WErr
  | nilBuffer
  | outOfRange
  | badPaddingByte
  | symlinkAttempted
  | nilHandle
deriving DecidableEq, Repr

/-- One file descriptor, mirroring the fields of `TarballFile` used by the
writer: slash-separated relative `Path`, declared `Size`, permission `Mode`
bits (including the symlink flag), content `Hash`, `SymlinkDestination`, and
the computed virtual `offset` assigned by the constructor. -/
structure TarballFile where
  Path : String
  Size : Int
  Mode : Nat
  Hash : List Nat
  SymlinkDestination : String
  offset : Int
deriving DecidableEq, Repr

/-- The symlink flag bit of `os.FileMode`: `os.ModeSymlink = 1 << 27`. -/
def modeSymlink : Nat := 134217728

/-- Strict lexicographic order on char lists by code point, used to model
sorting paths. -/
def charListLt : List Char → List Char → Bool
  | [], [] => false
  | [], _ :: _ => true
  | _ :: _, [] => false
  | a :: as, b :: bs =>
    if a.toNat < b.toNat then true
    else if b.toNat < a.toNat then false
    else charListLt as bs

/-- Lexicographic path order (byte order for the ASCII paths considered
here). -/
def pathLt (a b : String) : Bool := charListLt a.data b.data

/-- Split a character list at every occurrence of `sep`, mirroring Go's
`strings.Split` (which yields 1 + number-of-separators segments, keeping
empty segments). -/
def splitSegs (sep : Char) : List Char → List (List Char)
  | [] => [[]]
  | c :: rest =>
    if c = sep then [] :: splitSegs sep rest
    else
      match splitSegs sep rest with
      | s :: ss => (c :: s) :: ss
      | [] => [[c]]

/-- A path is absolute on unix when it begins with a separator, mirroring
`filepath.IsAbs`. -/
def isAbsPath (p : String) : Bool :=
  match p.data with
  | c :: _ => c = '/'
  | [] => false

/-- Mirrors the per-segment validation of `NewVirtualTarballWriter`: after
`strings.Split(f.Path, "/")`, no segment may be `"."` or `".."`. -/
def validSegments (p : String) : Bool :=
  (splitSegs '/' p.data).all fun s => ¬(s = ['.']) && ¬(s = ['.', '.'])

/-- The writer state: the (sorted) descriptor list, the derived total virtual
size, and the single-slot open-file cache (`openFileInfo`), identified by the
open descriptor's path (paths are unique within one writer, so path identity
coincides with the source's pointer identity). -/
structure VirtualTarballWriter where
  files : List TarballFile
  size : Int
  openFileInfo : Option String
deriving DecidableEq, Repr

/-- The validation/offset-assignment loop of `NewVirtualTarballWriter`: each
file is checked (absolute path, `.`/`..` segments, duplicate paths), then
receives `offset := size` and the running total advances by `Size + 1`
(the terminator byte).  This happens in input order, before any sorting. -/
def buildFileList : List TarballFile → List String → Int → List TarballFile →
    Except TBErr (List TarballFile × Int)
  | [], _, size, acc => Except.ok (acc, size)
  | f :: rest, seen, size, acc =>
    if isAbsPath f.Path then Except.error TBErr.ErrBadPAth
    else if ¬ validSegments f.Path then Except.error TBErr.ErrBadPAth
    else if seen.contains f.Path then Except.error TBErr.ErrDuplicatePaths
    else
      buildFileList rest (f.Path :: seen) (size + f.Size + 1)
        (acc ++ [{ f with offset := size }])

/-- Insert a descriptor into a list sorted by path. -/
def insertByPath (f : TarballFile) : List TarballFile → List TarballFile
  | [] => [f]
  | g :: rest =>
    if pathLt f.Path g.Path then f :: g :: rest else g :: insertByPath f rest

/-- Modelled from the spec: the `sort.Sort(filesInternal)` call at the end of
`NewVirtualTarballWriter` uses the `Less` method of `tarballFileList`, whose
defining file is not under `src/`; the spec states descriptors are sorted
into canonical order by path, so the model sorts by path.  Paths are unique
after validation, so any correct by-path sort produces this same list. -/
def sortByPath : List TarballFile → List TarballFile
  | [] => []
  | f :: rest => insertByPath f (sortByPath rest)

/-- `NewVirtualTarballWriter`: validate and lay out the virtual byte space
(offsets assigned in input order), then sort the descriptor list. -/
def newVirtualTarballWriter (files : List TarballFile) :
    Except TBErr VirtualTarballWriter :=
  match buildFileList files [] 0 [] with
  | Except.error e => Except.error e
  | Except.ok (lst, size) => Except.ok ⟨sortByPath lst, size, none⟩

/-- The offset recorded for the descriptor with the given path, if present. -/
def offsetOfPath (files : List TarballFile) (p : String) : Option Int :=
  match files.find? (fun f => f.Path = p) with
  | some f => some f.offset
  | none => none

/-- The offset the constructed writer assigns to path `p` for a given input
list (`none` when construction fails or the path is absent). -/
def builtOffsetOf (input : List TarballFile) (p : String) : Option Int :=
  match newVirtualTarballWriter input with
  | Except.ok w => offsetOfPath w.files p
  | Except.error _ => none

/-- The modelled on-disk state: regular files created so far (path to byte
content) and the set of paths at which symlinks exist. -/
structure FS where
  files : List (String × List Nat)
  links : List String
deriving DecidableEq, Repr

/-- The empty filesystem. -/
def emptyFS : FS := ⟨[], []⟩

/-- Content of the regular file at `p`, if it has been created. -/
def FS.lookupFile (fs : FS) (p : String) : Option (List Nat) :=
  fs.files.lookup p

/-- Replace the binding for `p` (or append it) in an association list. -/
def setAssoc : List (String × List Nat) → String → List Nat →
    List (String × List Nat)
  | [], p, c => [(p, c)]
  | (q, d) :: rest, p, c =>
    if q = p then (q, c) :: rest else (q, d) :: setAssoc rest p c

/-- Store content `c` for path `p`. -/
def FS.setFile (fs : FS) (p : String) (c : List Nat) : FS :=
  { fs with files := setAssoc fs.files p c }

/-- Does any filesystem object (regular file or symlink) exist at `p`?
Models what `os.Lstat` reports. -/
def pathExists (fs : FS) (p : String) : Bool :=
  fs.files.any (fun e => e.1 = p) || fs.links.contains p

/-- Outcome of `makeSymlink`. -/
inductive SymlinkResult
  | skipped
  | attempted
deriving DecidableEq, Repr

/-- Mirrors `makeSymlink` in `virtual_tarball_writer.go`.  The source first
calls `os.Lstat(tf.Path)`; when the path does not exist, `Lstat` fails with
an `IsNotExist` error and the function returns `nil` immediately, creating
nothing (`skipped`).  Only when the path already exists does execution reach
the `os.Getwd`/`os.Chdir(filepath.Base(tf.Path))`/`os.Symlink` calls
(`attempted`); their combined result depends on the live filesystem (the
`Chdir` targets the existing object, which is not a directory in the cases
modelled here), so the write path surfaces `attempted` as a distinguished
error marker rather than fixing one OS outcome. -/
def makeSymlink (fs : FS) (tf : TarballFile) : SymlinkResult :=
  if pathExists fs tf.Path then SymlinkResult.attempted else SymlinkResult.skipped

/-- Truncate (or zero-extend) content to exactly `size` bytes, modelling
`File.Truncate`. -/
def truncateContent (c : List Nat) (size : Nat) : List Nat :=
  c.take size ++ List.replicate (size - c.length) 0

/-- Open the file at `p` with `O_CREATE` (empty content when absent) and
reserve its declared size via truncation, mirroring the creation path of
`WriteAt` (`os.OpenFile` followed by `f.Truncate(tf.Size)`); `os.MkdirAll`
and the permission/chmod handling have no observable effect in this model. -/
def openAndTruncate (fs : FS) (p : String) (size : Int) : FS :=
  let c := (fs.lookupFile p).getD []
  fs.setFile p (truncateContent c size.toNat)

/-- Write `bytes` into the file at `p` starting at local offset `lo`,
modelling the success path of `os.File.WriteAt` (gaps beyond the current end
read back as zero bytes). -/
def fsWriteFile (fs : FS) (p : String) (lo : Nat) (bytes : List Nat) : FS :=
  let c := (fs.lookupFile p).getD []
  let padded := c ++ List.replicate (lo - c.length) 0
  fs.setFile p (padded.take lo ++ bytes ++ padded.drop (lo + bytes.length))

/-- The state threaded through the body of `WriteAt`: bytes written so far
(`total`), the advancing virtual `offset`, the unconsumed buffer
(`remainder`), the filesystem, and the open-file slot. -/
structure WSt where
  total : Nat
  offset : Int
  remainder : List Nat
  fs : FS
  openInfo : Option String
deriving DecidableEq, Repr

/-- Sequence two fallible steps of the `WriteAt` body: an error short-circuits
with the state at the point of failure (the source returns `0, err`
immediately, leaving whatever was already written on disk). -/
def andThenW (r : WSt × Option WErr) (f : WSt → WSt × Option WErr) :
    WSt × Option WErr :=
  match r with
  | (st, some e) => (st, some e)
  | (st, none) => f st

/-- First stage of the per-descriptor body of `WriteAt`: for a symlink-mode
descriptor run `makeSymlink`; otherwise, when `tf.Size > 0` and the
single-slot cache does not already hold this descriptor, create/open the
target file and reserve its size.  A descriptor with `Size = 0` takes
neither branch — the creation code is guarded by `tf.Size > 0` in the
source. -/
def symlinkOpenStep (tf : TarballFile) (st : WSt) : WSt × Option WErr :=
  if Nat.land tf.Mode modeSymlink = modeSymlink then
    match makeSymlink st.fs tf with
    | SymlinkResult.skipped => (st, none)
    | SymlinkResult.attempted => (st, some WErr.symlinkAttempted)
  else if tf.Size > 0 then
    if st.openInfo = some tf.Path then (st, none)
    else
      ({ st with fs := openAndTruncate st.fs tf.Path tf.Size,
                 openInfo := some tf.Path }, none)
  else (st, none)

/-- The slice `p` actually written for this descriptor: the remainder, cut to
the descriptor's declared size when it would overrun
(`p = remainder[:tf.Size-localOffset]`). -/
def cutBuf (tf : TarballFile) (st : WSt) : List Nat :=
  if st.offset - tf.offset + (st.remainder.length : Int) > tf.Size then
    st.remainder.take (tf.Size - (st.offset - tf.offset)).toNat
  else st.remainder

/-- Second stage: when the local offset lies below the declared size and the
cut slice is non-empty, write it through the open handle and advance
`total`, `offset` and `remainder` by the bytes written (the full slice on
the modelled success path).  A write with no open handle mirrors the
source's nil `t.openFile` dereference. -/
def contentWriteStep (tf : TarballFile) (st : WSt) : WSt × Option WErr :=
  if st.offset - tf.offset < tf.Size then
    if 0 < (cutBuf tf st).length then
      match st.openInfo with
      | none => (st, some WErr.nilHandle)
      | some path =>
        ({ st with
            fs := fsWriteFile st.fs path (st.offset - tf.offset).toNat (cutBuf tf st),
            total := st.total + (cutBuf tf st).length,
            offset := st.offset + ((cutBuf tf st).length : Int),
            remainder := st.remainder.drop (cutBuf tf st).length }, none)
    else (st, none)
  else (st, none)

/-- Third stage: at the descriptor's terminator position
(`offset == tf.offset + tf.Size`) with bytes left, the next byte must be 0
(`ErrBadPaddingByte` otherwise) and consuming it advances `total` and
`offset` by one. -/
def terminatorStep (tf : TarballFile) (st : WSt) : WSt × Option WErr :=
  if st.offset = tf.offset + tf.Size then
    match st.remainder with
    | [] => (st, none)
    | b :: rest =>
      if b ≠ 0 then (st, some WErr.badPaddingByte)
      else ({ st with total := st.total + 1, offset := st.offset + 1,
                      remainder := rest }, none)
  else (st, none)

/-- The per-descriptor body of `WriteAt`, stages sequenced as in the source. -/
def writeFileStep (tf : TarballFile) (st : WSt) : WSt × Option WErr :=
  andThenW (symlinkOpenStep tf st) fun st1 =>
    andThenW (contentWriteStep tf st1) fun st2 => terminatorStep tf st2

/-- The descriptor loop of `WriteAt`: skip descriptors whose virtual range
`[tf.offset, tf.offset + tf.Size + 1)` does not contain the current offset,
run the body otherwise, and stop once the remainder is exhausted. -/
def writeLoop : List TarballFile → WSt → WSt × Option WErr
  | [], st => (st, none)
  | tf :: rest, st =>
    if st.offset < tf.offset ∨ st.offset ≥ tf.offset + tf.Size + 1 then
      writeLoop rest st
    else
      match writeFileStep tf st with
      | (st1, some e) => (st1, some e)
      | (st1, none) =>
        if st1.remainder = [] then (st1, none) else writeLoop rest st1

/-- The observable outcome of one `WriteAt` call: the returned byte count
`n`, the returned error, the filesystem afterwards, and the open-file slot
afterwards. -/
structure WriteAtResult where
  n : Nat
  err : Option WErr
  fs : FS
  openFileInfo : Option String
deriving DecidableEq, Repr

/-- `VirtualTarballWriter.WriteAt`: reject a nil buffer (`ErrNilBuffer`),
then an offset outside `[0, size)` (`ErrOutOfRange`), then run the
descriptor loop; every error return reports `n = 0` while keeping the
filesystem mutations made before the failure, exactly as the source's
`return 0, err` does. -/
def writeAt (w : VirtualTarballWriter) (fs : FS) (buf : Option (List Nat))
    (offset : Int) : WriteAtResult :=
  match buf with
  | none => ⟨0, some WErr.nilBuffer, fs, w.openFileInfo⟩
  | some b =>
    if offset < 0 ∨ offset ≥ w.size then
      ⟨0, some WErr.outOfRange, fs, w.openFileInfo⟩
    else
      match writeLoop w.files ⟨0, offset, b, fs, w.openFileInfo⟩ with
      | (st, some e) => ⟨0, some e, st.fs, st.openInfo⟩
      | (st, none) => ⟨st.total, none, st.fs, st.openInfo⟩

/-- Two bytes, little-endian, of `v mod 2^16` (the byte order used by the
server is `binary.LittleEndian`). -/
def u16le (v : Nat) : List Nat := [v % 256, v / 256 % 256]

/-- Four bytes, little-endian, of `v mod 2^32`. -/
def u32le (v : Nat) : List Nat :=
  [v % 256, v / 256 % 256, v / 65536 % 256, v / 16777216 % 256]

/-- Eight bytes, little-endian, of `v mod 2^64`. -/
def u64le (v : Nat) : List Nat := u32le (v % 4294967296) ++ u32le (v / 4294967296)

/-- The bytes of a path string; the descriptors considered here use ASCII
paths, for which the code points are the UTF-8 bytes Go serializes. -/
def stringBytes (s : String) : List Nat := s.data.map Char.toNat

/-- The per-file portion of the metadata blob built in `Server.Run`:
2-byte path length, path bytes, 8-byte size, 4-byte mode, then the raw hash
bytes. -/
def fileMetadata (f : TarballFile) : List Nat :=
  u16le (stringBytes f.Path).length ++ stringBytes f.Path ++
    u64le f.Size.toNat ++ u32le f.Mode ++ f.Hash

/-- The metadata blob built at `Server.Run` startup: 8-byte total virtual
size, 4-byte file count, then each file's record in list order. -/
def buildMetadataBlob (tbSize : Nat) (files : List TarballFile) : List Nat :=
  u64le tbSize ++ u32le files.length ++ (files.map fileMetadata).flatten

/-- `sectionCount` as computed in `Server.Run`: integer division rounded up
by a post-check. -/
def sectionCountOf (mdLen sectionSize : Nat) : Nat :=
  let c := mdLen / sectionSize
  if c * sectionSize < mdLen then c + 1 else c

/-- The section-slicing loop of `Server.Run`, one step per section index `n`
with running start offset `o`: the end point is `e = min (o + sectionSize)
(len md)`, the section is the 2-byte index followed by `md[o:e]`, and the
loop then advances the start offset by `o += e` (the source's own update).
`none` models the Go slice-bounds panic of `md[o:e]` when `o > e`. -/
def sliceSectionsLoop (md : List Nat) (sectionSize : Nat) :
    Nat → Nat → Nat → Option (List (List Nat))
  | 0, _, _ => some []
  | k + 1, n, o =>
    let e := min (o + sectionSize) md.length
    if o ≤ e then
      match sliceSectionsLoop md sectionSize k (n + 1) (o + e) with
      | some rest => some ((u16le n ++ ((md.drop o).take (e - o))) :: rest)
      | none => none
    else none

/-- The metadata sections built at `Server.Run` startup (each prefixed with
its 2-byte little-endian index; the prefix length is the
`metadataSectionMsgSize` constant, 2 bytes per the spec since its defining
file is not under `src/`). -/
def buildMetadataSections (md : List Nat) (sectionSize : Nat) :
    Option (List (List Nat)) :=
  sliceSectionsLoop md sectionSize (sectionCountOf md.length sectionSize) 0 0

/-- Concatenate section payloads in index order, stripping each section's
2-byte index. -/
def reassembleSections (secs : List (List Nat)) : List Nat :=
  (secs.map fun s => s.drop 2).flatten

/-- The control opcodes of the protocol envelope. -/
inductive ServerOp
  | AnnounceTarball
  | RequestMetadataHeader
  | RespondMetadataHeader
  | RequestMetadataSection
  | RespondMetadataSection
  | RequestDataSections
deriving DecidableEq, Repr

/-- The server state fields that the control loop reads and writes: the
transfer identifier, the pre-built metadata header and sections, the
timestamp of the last `RequestDataSections` (`none` models the zero
`time.Time`), the streaming cursor, the derived region bookkeeping, and the
reader's total size.  Times are integer milliseconds. -/
structure Server where
  hashId : List Nat
  metadataHeader : List Nat
  metadataSections : List (List Nat)
  lastClientDataRequest : Option Int
  nextRegion : Nat
  regionCount : Nat
  regionSize : Nat
  tbSize : Nat
deriving DecidableEq, Repr

/-- `Server.processControl` after envelope extraction: ignore messages whose
transfer identifier differs; answer `RequestMetadataHeader` with the header;
for `RequestMetadataSection` read the payload's first two bytes as a
little-endian index — the source indexes `data[0:2]` with no length check,
so a payload shorter than two bytes panics, modelled as `none` — then ignore
out-of-range indices and respond with the section otherwise; record the
current time for `RequestDataSections`.  The result pairs the new server
state with an optional control response payload. -/
def processControl (s : Server) (hashId : List Nat) (op : ServerOp)
    (data : List Nat) (now : Int) : Option (Server × Option (List Nat)) :=
  if hashId ≠ s.hashId then some (s, none)
  else
    match op with
    | ServerOp.RequestMetadataHeader => some (s, some s.metadataHeader)
    | ServerOp.RequestMetadataSection =>
      match data with
      | b0 :: b1 :: _ =>
        if b0 + 256 * b1 ≥ s.metadataSections.length then some (s, none)
        else some (s, some (s.metadataSections.getD (b0 + 256 * b1) []))
      | _ => none
    | ServerOp.RequestDataSections =>
      some ({ s with lastClientDataRequest := some now }, none)
    | _ => some (s, none)

/-- Modelled from the spec: `VirtualTarballReader.ReadAt` is not under
`src/`; per the spec it fails with `OutOfRange` when the requested offset
lies outside `[0, totalSize)` and otherwise reads
`min (len buf) (totalSize - offset)` bytes.  The server's streaming branch
only ever passes the non-negative cursor, so a `Nat` offset suffices here. -/
def readerReadAt (totalSize bufLen offset : Nat) : Option Nat :=
  if offset ≥ totalSize then none else some (min bufLen (totalSize - offset))

/-- A framed data message: the virtual offset the server put in the message
and the number of payload bytes read for it. -/
structure DataMsg where
  offset : Nat
  payloadLen : Nat
deriving DecidableEq, Repr

/-- The `default:` branch of the `Server.Run` select loop: skip while no
`RequestDataSections` was ever recorded (`IsZero`), skip when the last one
is 500 ms old or older, otherwise read at the cursor (an `OutOfRange` read
is skipped benignly), emit the data message, and advance the cursor,
wrapping to 0 once it reaches `regionCount`. -/
def serverIdleStep (s : Server) (now : Int) : Option DataMsg × Server :=
  match s.lastClientDataRequest with
  | none => (none, s)
  | some t =>
    if now - t ≥ 500 then (none, s)
    else
      match readerReadAt s.tbSize s.regionSize s.nextRegion with
      | none => (none, s)
      | some n =>
        (some ⟨s.nextRegion, n⟩,
          { s with nextRegion :=
              if s.nextRegion + 1 ≥ s.regionCount then 0 else s.nextRegion + 1 })

/-- `regionSize` as initialized in `Server.Run`: the datagram capacity minus
the data-message overhead, cast through `uint16`. -/
def regionSizeOf (datagramSize protocolDataMsgSize : Nat) : Nat :=
  (datagramSize - protocolDataMsgSize) % 65536

/-- `regionCount` as initialized in `Server.Run`: first the integer division
`size / rs`, then one more region when `rs * (size / rs)` still falls short
of `size` (the source's post-increment check). -/
def computeRegionCount (size rs : Nat) : Nat :=
  if rs * (size / rs) < size then size / rs + 1 else size / rs

/-- Modelled from the spec: the Region Tracker (`NakRegions`, whose defining
file is not under `src/`) partitions `[0, totalSize)` into `regionCount`
regions of `regionSize` bytes each, region `i` spanning from `i * regionSize`
to `min ((i+1) * regionSize) totalSize`; its payload length is therefore
`min regionSize (totalSize - i * regionSize)`. -/
def regionPayloadLen (totalSize rs i : Nat) : Nat :=
  min rs (totalSize - i * rs)

/-- Unwrap a successful construction (all concrete inputs below construct
successfully; the fallback is the empty writer). -/
def writerOf (l : List TarballFile) : VirtualTarballWriter :=
  match newVirtualTarballWriter l with
  | Except.ok w => w
  | Except.error _ => ⟨[], 0, none⟩

/-- A 1-byte regular file `a`. -/
def c1FileA : TarballFile := ⟨"a", 1, 420, [], "", 0⟩

/-- A 2-byte regular file `b`. -/
def c1FileB : TarballFile := ⟨"b", 2, 420, [], "", 0⟩

/-- A metadata file whose blob is exactly 60 bytes long. -/
def c2File : TarballFile := ⟨"ab", 0, 420, List.replicate 32 0, "", 0⟩

/-- The metadata blob the server builds for the one-file set `[c2File]`
(total virtual size 1): 8 + 4 + (2 + 2 + 8 + 4 + 32) = 60 bytes. -/
def c2Blob : List Nat := buildMetadataBlob 1 [c2File]

/-- The writer of the spec's spanning-files example: two 7-byte regular
files, total virtual span 16. -/
def spanWriter : VirtualTarballWriter :=
  writerOf [⟨"a.txt", 7, 420, [], "", 0⟩, ⟨"b.txt", 7, 420, [], "", 0⟩]

/-- The 14 bytes of `"Hello, world!\n"`. -/
def hello14 : List Nat := [72, 101, 108, 108, 111, 44, 32, 119, 111, 114, 108, 100, 33, 10]

/-- The 16 bytes of `"Hello, \x00world!\n\x00"`: the same content with the
two terminator NUL bytes in place. -/
def hello16 : List Nat :=
  [72, 101, 108, 108, 111, 44, 32, 0, 119, 111, 114, 108, 100, 33, 10, 0]

/-- A writer over a single zero-length regular file (virtual span 1: just
the terminator byte). -/
def zeroWriter : VirtualTarballWriter := writerOf [⟨"empty.txt", 0, 420, [], "", 0⟩]

/-- A writer over a single 1-byte regular file `a` (virtual span 2). -/
def padWriter : VirtualTarballWriter := writerOf [⟨"a", 1, 420, [], "", 0⟩]

/-- A symlink-mode descriptor (`Mode` carries the `os.ModeSymlink` bit). -/
def linkFile : TarballFile := ⟨"l", 0, modeSymlink + 420, [], "target", 0⟩

/-- A writer over the single symlink descriptor `linkFile`. -/
def linkWriter : VirtualTarballWriter := writerOf [linkFile]

/-- A concrete server 100 ms after its only data request, one region. -/
def witnessServer : Server := ⟨[1], [], [], some 0, 0, 1, 8, 1⟩

theorem symlinkOpenStep_err (tf : TarballFile) (st : WSt) (e : WErr)
    (h : (symlinkOpenStep tf st).2 = some e) : e = WErr.symlinkAttempted := by
  unfold symlinkOpenStep at h
  split at h
  · split at h <;> simp_all
  · split at h
    · split at h <;> simp_all
    · simp_all

theorem contentWriteStep_err (tf : TarballFile) (st : WSt) (e : WErr)
    (h : (contentWriteStep tf st).2 = some e) : e = WErr.nilHandle := by
  unfold contentWriteStep at h
  split at h
  · split at h
    · split at h <;> simp_all
    · simp_all
  · simp_all

theorem terminatorStep_err (tf : TarballFile) (st : WSt) (e : WErr)
    (h : (terminatorStep tf st).2 = some e) : e = WErr.badPaddingByte := by
  unfold terminatorStep at h
  split at h
  · split at h
    · simp_all
    · split at h <;> simp_all
  · simp_all

theorem andThenW_err (r : WSt × Option WErr) (f : WSt → WSt × Option WErr)
    (e : WErr) (h : (andThenW r f).2 = some e) :
    r.2 = some e ∨ ∃ st, r = (st, none) ∧ (f st).2 = some e := by
  rcases r with ⟨st, o⟩
  cases o with
  | none =>
    right
    exact ⟨st, rfl, by simpa [andThenW] using h⟩
  | some e2 =>
    left
    simpa [andThenW] using h

theorem writeFileStep_err (tf : TarballFile) (st : WSt) (e : WErr)
    (h : (writeFileStep tf st).2 = some e) :
    e = WErr.symlinkAttempted ∨ e = WErr.nilHandle ∨ e = WErr.badPaddingByte := by
  unfold writeFileStep at h
  rcases andThenW_err _ _ _ h with h1 | ⟨st1, _, h2⟩
  · exact Or.inl (symlinkOpenStep_err _ _ _ h1)
  · rcases andThenW_err _ _ _ h2 with h3 | ⟨st2, _, h4⟩
    · exact Or.inr (Or.inl (contentWriteStep_err _ _ _ h3))
    · exact Or.inr (Or.inr (terminatorStep_err _ _ _ h4))

theorem writeLoop_err (files : List TarballFile) (st : WSt) (e : WErr)
    (h : (writeLoop files st).2 = some e) :
    e = WErr.symlinkAttempted ∨ e = WErr.nilHandle ∨ e = WErr.badPaddingByte := by
  induction files generalizing st with
  | nil => simp [writeLoop] at h
  | cons tf rest ih =>
    rw [writeLoop] at h
    split at h
    · exact ih _ h
    · split at h
      next st1 e1 heq =>
        have : e1 = e := by simp_all
        subst this
        exact writeFileStep_err _ _ _ (by rw [heq])
      next st1 heq =>
        split at h
        · simp_all
        · exact ih _ h

/-- Claim C1 (refuted on the code): `NewVirtualTarballWriter` assigns each
descriptor's offset from the running total in input-list order and only then
sorts the list, so the two permutations of the same two-file list give the
descriptor of path `a` offset 0 in one layout and offset 3 in the other —
the layouts are not identical, although the code's own comment sorts
"for consistency". -/
theorem c1_offsets_depend_on_input_order :
    builtOffsetOf [c1FileA, c1FileB] "a" = some 0 ∧
    builtOffsetOf [c1FileB, c1FileA] "a" = some 3 ∧
    builtOffsetOf [c1FileA, c1FileB] "a" ≠ builtOffsetOf [c1FileB, c1FileA] "a" := by
  refine ⟨by decide, by decide, by decide⟩

/-- Claim C2 (refuted on the code): the slicing loop advances its start
offset with `o += e` instead of `o = e`, so with section size 20 the 60-byte
blob is cut into sections covering `[0,20)`, `[20,40)` and the empty slice
`[60,60)` — concatenating the payloads in index order returns only the first
40 bytes, not the original blob. -/
theorem c2_sections_do_not_reassemble :
    c2Blob.length = 60 ∧
    (buildMetadataSections c2Blob 20).map reassembleSections
      = some (c2Blob.take 40) ∧
    (buildMetadataSections c2Blob 20).map reassembleSections ≠ some c2Blob := by
  refine ⟨by decide, by decide, by decide⟩

/-- Claim C3 (counterexample): writing the 14-byte `"Hello, world!\n"` at
offset 0 across the two 7-byte files does not succeed — after the first
seven content bytes the virtual offset 7 is the first file's terminator
position, the supplied byte there is `'w'` (119, non-zero), and the call
returns `n = 0` with `ErrBadPaddingByte`. -/
theorem c3_fourteen_byte_write_fails :
    (writeAt spanWriter emptyFS (some hello14) 0).err = some WErr.badPaddingByte ∧
    (writeAt spanWriter emptyFS (some hello14) 0).n = 0 := by
  refine ⟨by decide, by decide⟩

/-- Claim C3 as amended: a spanning write succeeds only when the caller
supplies the zero terminator byte after each file's content; the 16-byte
buffer `"Hello, \x00world!\n\x00"` at offset 0 returns `n = 16` with no
error and leaves `"Hello, "` and `"world!\n"` on disk, while the claimed
14-byte buffer fails with `ErrBadPaddingByte` and `n = 0`. -/
theorem c3_amended_spanning_write :
    (writeAt spanWriter emptyFS (some hello16) 0).err = none ∧
    (writeAt spanWriter emptyFS (some hello16) 0).n = 16 ∧
    (writeAt spanWriter emptyFS (some hello16) 0).fs.lookupFile "a.txt"
      = some [72, 101, 108, 108, 111, 44, 32] ∧
    (writeAt spanWriter emptyFS (some hello16) 0).fs.lookupFile "b.txt"
      = some [119, 111, 114, 108, 100, 33, 10] ∧
    (writeAt spanWriter emptyFS (some hello14) 0).err = some WErr.badPaddingByte := by
  refine ⟨by decide, by decide, by decide, by decide, by decide⟩

/-- Claim C4 (refuted on the code): the file-creation path inside `WriteAt`
is guarded by `tf.Size > 0`, so the write that covers the zero-size
descriptor's terminator byte succeeds (`n = 1`) without ever opening or
creating `empty.txt` — the filesystem still has no entry for it afterwards,
contradicting the code's own comment that the terminator byte exists so that
at least one `WriteAt` call creates every file. -/
theorem c4_zero_size_file_not_created :
    (writeAt zeroWriter emptyFS (some [0]) 0).err = none ∧
    (writeAt zeroWriter emptyFS (some [0]) 0).n = 1 ∧
    (writeAt zeroWriter emptyFS (some [0]) 0).fs = emptyFS ∧
    (writeAt zeroWriter emptyFS (some [0]) 0).fs.lookupFile "empty.txt" = none := by
  refine ⟨by decide, by decide, by decide, by decide⟩

/-- Claim C5 (counterexample): writing `[65, 66]` at offset 0 puts the
content byte 65 on disk, then fails on the non-zero byte 66 at the
terminator position; the call reports `n = 0` and `ErrBadPaddingByte`, but
the on-disk contents are not unchanged — file `a` now exists and holds
`[65]`, although the filesystem was empty before the call. -/
theorem c5_partial_write_persists :
    (writeAt padWriter emptyFS (some [65, 66]) 0).err = some WErr.badPaddingByte ∧
    (writeAt padWriter emptyFS (some [65, 66]) 0).n = 0 ∧
    (writeAt padWriter emptyFS (some [65, 66]) 0).fs ≠ emptyFS ∧
    (writeAt padWriter emptyFS (some [65, 66]) 0).fs.lookupFile "a" = some [65] := by
  refine ⟨by decide, by decide, by decide, by decide⟩

theorem writeAt_err_none_or_n_zero (w : VirtualTarballWriter) (fs : FS)
    (buf : Option (List Nat)) (off : Int) :
    (writeAt w fs buf off).err = none ∨ (writeAt w fs buf off).n = 0 := by
  cases buf with
  | none => simp [writeAt]
  | some b =>
    simp only [writeAt]
    split
    · exact Or.inr rfl
    · rcases hl : writeLoop w.files ⟨0, off, b, fs, w.openFileInfo⟩ with ⟨st, o⟩
      cases o
      · exact Or.inl rfl
      · exact Or.inr rfl

/-- Claim C5 as amended: a `WriteAt` call that fails with `ErrBadPaddingByte`
always reports a byte count of 0 (every error return of the source is
`return 0, err`); content bytes written by the same call before reaching the
offending terminator position persist on disk — the error does not roll the
write back. -/
theorem c5_amended_bad_padding_returns_zero (w : VirtualTarballWriter)
    (fs : FS) (buf : Option (List Nat)) (off : Int)
    (h : (writeAt w fs buf off).err = some WErr.badPaddingByte) :
    (writeAt w fs buf off).n = 0 := by
  rcases writeAt_err_none_or_n_zero w fs buf off with h0 | h0
  · rw [h0] at h
    cases h
  · exact h0

/-- Witness for the amended claim C5 at the concrete counterexample input. -/
theorem c5_amended_witness : (writeAt padWriter emptyFS (some [65, 66]) 0).n = 0 :=
  c5_amended_bad_padding_returns_zero padWriter emptyFS (some [65, 66]) 0 (by decide)

/-- Claim C6 (counterexample): the nil-buffer check precedes the range check
in `WriteAt`, so a call with a nil buffer and the out-of-range offset `-1`
returns `ErrNilBuffer`, not `ErrOutOfRange` — not every call with
`offset < 0` fails with `OutOfRange`. -/
theorem c6_nil_buffer_precedes_out_of_range :
    ((-1 : Int) < 0) ∧
    (writeAt padWriter emptyFS none (-1)).err = some WErr.nilBuffer ∧
    (writeAt padWriter emptyFS none (-1)).err ≠ some WErr.outOfRange := by
  refine ⟨by decide, by decide, by decide⟩

/-- Claim C6 as amended: for a non-nil buffer, a `WriteAt` call fails with
`ErrOutOfRange` exactly when the offset lies outside `[0, totalSize)` (in
particular no in-range call ever returns `OutOfRange`: the descriptor loop
can only fail with other errors); a nil buffer always fails with
`ErrNilBuffer` first, regardless of the offset. -/
theorem c6_amended_out_of_range_iff (w : VirtualTarballWriter) (fs : FS)
    (b : List Nat) (off : Int) :
    ((writeAt w fs (some b) off).err = some WErr.outOfRange ↔
      (off < 0 ∨ off ≥ w.size)) ∧
    (writeAt w fs none off).err = some WErr.nilBuffer := by
  constructor
  · constructor
    · intro h
      by_contra hc
      simp only [writeAt] at h
      rw [if_neg hc] at h
      rcases hl : writeLoop w.files ⟨0, off, b, fs, w.openFileInfo⟩ with ⟨st, o⟩
      rw [hl] at h
      cases o with
      | none => exact absurd h (by simp)
      | some e =>
        have he : (writeLoop w.files ⟨0, off, b, fs, w.openFileInfo⟩).2 = some e := by
          rw [hl]
        have h2 : e = WErr.outOfRange := by simpa using h
        rcases writeLoop_err _ _ _ he with h3 | h3 | h3 <;> simp_all
    · intro h
      simp only [writeAt]
      rw [if_pos h]
  · simp [writeAt]

/-- Claim C9 (refuted on the code): `makeSymlink` inverts its own intent —
when the link path does not yet exist, `os.Lstat` fails with `IsNotExist`
and the function returns `nil` without creating anything, so a `WriteAt`
covering the symlink descriptor's terminator byte over an empty filesystem
succeeds while creating no filesystem object at all; conversely, when the
path already exists, the code is the branch that proceeds to attempt
creation — the exact opposite of idempotent creation (and of the source's
own comment "Dont bother recreating if exists"). -/
theorem c9_symlink_creation_inverted :
    (writeAt linkWriter emptyFS (some [0]) 0).err = none ∧
    (writeAt linkWriter emptyFS (some [0]) 0).fs = emptyFS ∧
    makeSymlink emptyFS linkFile = SymlinkResult.skipped ∧
    makeSymlink ⟨[], ["l"]⟩ linkFile = SymlinkResult.attempted := by
  refine ⟨by decide, by decide, by decide, by decide⟩

/-- Claim C7: the `default:` branch of the server loop emits a data message
exactly when a `RequestDataSections` was recorded strictly less than 500 ms
ago (never-requested and 500-ms-or-older requests emit nothing), and
`processControl` refreshes the recorded request time on every matching
`RequestDataSections`, which is what restarts streaming.  The cursor
hypotheses are the loop invariants: the cursor stays below `regionCount`,
which never exceeds the reader's total size. -/
theorem c7_stream_gate_iff (s : Server) (now : Int)
    (hreg : s.nextRegion < s.regionCount)
    (hcount : s.regionCount ≤ s.tbSize) :
    (((serverIdleStep s now).1.isSome = true) ↔
      ∃ t, s.lastClientDataRequest = some t ∧ now - t < 500) ∧
    ∀ data, processControl s s.hashId ServerOp.RequestDataSections data now
      = some ({ s with lastClientDataRequest := some now }, none) := by
  constructor
  · unfold serverIdleStep
    cases hreq : s.lastClientDataRequest with
    | none => simp
    | some t =>
      have hread : readerReadAt s.tbSize s.regionSize s.nextRegion
          = some (min s.regionSize (s.tbSize - s.nextRegion)) := by
        unfold readerReadAt
        rw [if_neg (by omega)]
      dsimp only
      by_cases hgate : now - t ≥ 500
      · rw [if_pos hgate]
        constructor
        · intro hfoo
          exact absurd hfoo (by simp)
        · rintro ⟨t2, ht2, hlt2⟩
          injection ht2 with ht2
          omega
      · rw [if_neg hgate, hread]
        constructor
        · intro _
          exact ⟨t, rfl, by omega⟩
        · intro _
          rfl
  · intro data
    simp [processControl]

/-- Witness for claim C7 at a concrete server state and time. -/
theorem c7_stream_gate_witness :
    (((serverIdleStep witnessServer 100).1.isSome = true) ↔
      ∃ t, witnessServer.lastClientDataRequest = some t ∧ 100 - t < 500) ∧
    ∀ data, processControl witnessServer witnessServer.hashId
        ServerOp.RequestDataSections data 100
      = some ({ witnessServer with lastClientDataRequest := some 100 }, none) :=
  c7_stream_gate_iff witnessServer 100 (by decide) (by decide)

theorem regionCount_eq_ceil (size rs : Nat) (hrs : 0 < rs) (hsz : 0 < size) :
    computeRegionCount size rs = (size + rs - 1) / rs := by
  have hdm := Nat.div_add_mod size rs
  have hmlt : size % rs < rs := Nat.mod_lt _ hrs
  have h2 : size / rs * rs = rs * (size / rs) := Nat.mul_comm _ _
  unfold computeRegionCount
  rcases Nat.eq_zero_or_pos (size % rs) with h0 | h0
  · rw [if_neg (by omega)]
    refine (Nat.div_eq_of_lt_le ?_ ?_).symm
    · omega
    · rw [Nat.succ_mul]
      omega
  · rw [if_pos (by omega)]
    have h3 : (size / rs + 1) * rs = size / rs * rs + rs := Nat.succ_mul _ _
    refine (Nat.div_eq_of_lt_le ?_ ?_).symm
    · omega
    · rw [Nat.succ_mul]
      omega

theorem lastRegion_payload (size rs : Nat) (hrs : 0 < rs) (hsz : 0 < size) :
    regionPayloadLen size rs (computeRegionCount size rs - 1)
      = size - (computeRegionCount size rs - 1) * rs := by
  have hdm := Nat.div_add_mod size rs
  have hmlt : size % rs < rs := Nat.mod_lt _ hrs
  have h2 : size / rs * rs = rs * (size / rs) := Nat.mul_comm _ _
  unfold regionPayloadLen computeRegionCount
  rcases Nat.eq_zero_or_pos (size % rs) with h0 | h0
  · rw [if_neg (by omega)]
    have hq1 : 0 < size / rs := by
      rcases Nat.eq_zero_or_pos (size / rs) with hq | hq
      · rw [hq, Nat.mul_zero] at hdm
        omega
      · exact hq
    have h4 : (size / rs - 1) * rs = size / rs * rs - 1 * rs := Nat.sub_mul _ _ _
    have h5 : rs ≤ rs * (size / rs) := Nat.le_mul_of_pos_right rs hq1
    omega
  · rw [if_pos (by omega)]
    have h6 : size / rs + 1 - 1 = size / rs := rfl
    rw [h6]
    have h7 : size - size / rs * rs = size % rs := by
      rw [h2]
      omega
    rw [h7]
    exact Nat.min_eq_right (Nat.le_of_lt hmlt)

/-- Claim C8: `regionSize` is the datagram capacity minus the data-message
overhead (the `uint16` cast is the identity for the realistic capacities
below 2^16), the server's `regionCount` equals `ceil(totalSize/regionSize)`,
and the final region of the derived partition carries exactly the
`totalSize - (regionCount-1)*regionSize` remaining bytes. -/
theorem c8_region_count_ceil (totalSize datagramSize dataMsgOverhead : Nat)
    (hlt : dataMsgOverhead < datagramSize)
    (hfit : datagramSize - dataMsgOverhead < 65536)
    (hsz : 0 < totalSize) :
    regionSizeOf datagramSize dataMsgOverhead = datagramSize - dataMsgOverhead ∧
    computeRegionCount totalSize (regionSizeOf datagramSize dataMsgOverhead)
      = (totalSize + regionSizeOf datagramSize dataMsgOverhead - 1)
          / regionSizeOf datagramSize dataMsgOverhead ∧
    regionPayloadLen totalSize (regionSizeOf datagramSize dataMsgOverhead)
        (computeRegionCount totalSize (regionSizeOf datagramSize dataMsgOverhead) - 1)
      = totalSize
        - (computeRegionCount totalSize (regionSizeOf datagramSize dataMsgOverhead) - 1)
            * regionSizeOf datagramSize dataMsgOverhead := by
  have hrs : regionSizeOf datagramSize dataMsgOverhead
      = datagramSize - dataMsgOverhead := Nat.mod_eq_of_lt hfit
  have hpos : 0 < regionSizeOf datagramSize dataMsgOverhead := by
    rw [hrs]
    omega
  exact ⟨hrs, regionCount_eq_ceil _ _ hpos hsz, lastRegion_payload _ _ hpos hsz⟩

/-- Witness for claim C8: a 5-byte transfer over datagrams of capacity 12
with 4 bytes of data-message overhead (region size 8, one region). -/
theorem c8_region_count_witness :
    regionSizeOf 12 4 = 12 - 4 ∧
    computeRegionCount 5 (regionSizeOf 12 4)
      = (5 + regionSizeOf 12 4 - 1) / regionSizeOf 12 4 ∧
    regionPayloadLen 5 (regionSizeOf 12 4)
        (computeRegionCount 5 (regionSizeOf 12 4) - 1)
      = 5 - (computeRegionCount 5 (regionSizeOf 12 4) - 1) * regionSizeOf 12 4 :=
  c8_region_count_ceil 5 12 4 (by decide) (by decide) (by decide)

/-- Claim C10: for a matching transfer identifier, the
`RequestMetadataSection` handler reads `data[0:2]` with no length guard —
the model (and the Go runtime) completes exactly when the payload holds at
least two bytes, and any shorter payload hits the out-of-bounds slice
(`none` here, a panic in Go) instead of being ignored. -/
theorem c10_metadata_section_needs_two_bytes (s : Server) (data : List Nat)
    (now : Int) :
    (processControl s s.hashId ServerOp.RequestMetadataSection data now).isSome
      = true ↔ 2 ≤ data.length := by
  unfold processControl
  rw [if_neg (by simp)]
  dsimp only
  rcases data with _ | ⟨b0, _ | ⟨b1, rest⟩⟩
  · simp
  · simp
  · show (if b0 + 256 * b1 ≥ s.metadataSections.length then some (s, (none : Option (List Nat)))
        else some (s, some (s.metadataSections.getD (b0 + 256 * b1) []))).isSome = true
      ↔ 2 ≤ (b0 :: b1 :: rest).length
    constructor
    · intro _
      simp only [List.length_cons]
      omega
    · intro _
      split <;> rfl
